import Mathlib

/-!
# Verification of the spotiyrec highlight-selection engine

Shallow embedding of the core analysis utilities of the repository:

* `findHighlightSegments`, `generateRecommendationReasons` and
  `calculateTrackSimilarity` from `src/client/src/utils/trackAnalysis.js`;
* `calculateSectionScore` and `normalizeLoudness` from
  `src/client/src/utils/audioAnalysis.js`.

JavaScript numbers are modelled by `ℚ` (and `ℝ` where a square root is
taken); possibly-absent fields and nullable parameters are modelled with
`Option`; the one reachable exception (`TypeError` on a `null`
dereference) is modelled with `Except Unit`.
-/

namespace Spotiyrec

/-- JavaScript `x || d` for a possibly-absent number: `undefined`/`null`
and `0` are falsy, so the default is used for `none` and for `some 0`. -/
def jsOrQ (x : Option ℚ) (d : ℚ) : ℚ :=
  match x with
  | none => d
  | some v => if v = 0 then d else v

/-- JavaScript `l.slice(0, e)` for an integer `e`: a negative end index
counts from the end of the array, clamped at `0`. -/
def jsSliceTo {α : Type} (l : List α) (e : ℤ) : List α :=
  if 0 ≤ e then l.take e.toNat else l.take ((l.length : ℤ) + e).toNat

/-- The fields of the Spotify audio-features object that
`findHighlightSegments` reads: `energy`, `loudness`, `tempo` (each may be
absent on a degraded object) and the `_limited` degradation marker. -/
structure Features where
  energy : Option ℚ
  loudness : Option ℚ
  tempo : Option ℚ
  limited : Bool
deriving DecidableEq

/-- One entry of `analysis.sections`, with the fields read by the two
section scorers: `start`, `duration`, `loudness`, `tempo`, `energy`,
`confidence`. -/
structure AnalysisSection where
  start : ℚ
  duration : ℚ
  loudness : ℚ
  tempo : ℚ
  energy : ℚ
  confidence : ℚ
deriving DecidableEq

/-- One entry of `analysis.segments`; only its `start` is read. -/
structure Seg where
  start : ℚ
deriving DecidableEq

/-- The `analysis` object: `sections` and `segments` arrays (either may
be absent) and the `_limited` degradation marker. -/
structure Analysis where
  sections : Option (List AnalysisSection)
  segments : Option (List Seg)
  limited : Bool
deriving DecidableEq

/-- The options object of `findHighlightSegments`, with its JS defaults
`{maxHighlights = 3, minDuration = 20, maxDuration = 30,
minSegmentScore = 0.6}`. `maxHighlights` is an integer as in JS. -/
structure HLOptions where
  maxHighlights : ℤ
  minDuration : ℚ
  maxDuration : ℚ
  minSegmentScore : ℚ
deriving DecidableEq

/-- The default options of `findHighlightSegments`. -/
def defaultOptions : HLOptions :=
  { maxHighlights := 3, minDuration := 20, maxDuration := 30, minSegmentScore := 0.6 }

/-- An output highlight (also the shape of the scored-section records
built inside `findHighlightSegments`). -/
structure Highlight where
  start : ℚ
  duration : ℚ
  energy : ℚ
  loudness : ℚ
  tempo : ℚ
  score : ℚ
  reason : String
deriving DecidableEq

/-- The synthetic default highlight returned on the degraded-input path
and on the catch path of `findHighlightSegments`: hard-coded
`start: 0, duration: 30, score: 0.7`, with `features?.energy || 0.5`,
`features?.loudness || -10`, `features?.tempo || 120`. -/
def syntheticHighlight (features : Option Features) : Highlight :=
  { start := 0
    duration := 30
    energy := jsOrQ (features.bind Features.energy) 0.5
    loudness := jsOrQ (features.bind Features.loudness) (-10)
    tempo := jsOrQ (features.bind Features.tempo) 120
    score := 0.7
    reason := "Preview segment" }

/-- The section-scoring map of `findHighlightSegments`
(trackAnalysis.js lines 129-162): weighted sum of an energy score,
a clamped loudness score, a normalized tempo score and a
segment-density score, plus the categorical reason label. -/
def scoreSection (segments : List Seg) (s : AnalysisSection) : Highlight :=
  let energyScore := s.energy * 1.2
  let loudnessScore := min 1 (max 0 ((s.loudness + 30) / 30))
  let tempoScore := min 1 (s.tempo / 160)
  let sectionSegments := segments.filter fun seg =>
    decide (seg.start ≥ s.start) && decide (seg.start < s.start + s.duration)
  let segmentDensity := (sectionSegments.length : ℚ) / s.duration
  let densityScore := min 1 (segmentDensity / 5)
  let score := energyScore * 0.4 + loudnessScore * 0.3 + tempoScore * 0.2 + densityScore * 0.1
  { start := s.start
    duration := s.duration
    energy := s.energy
    loudness := s.loudness
    tempo := s.tempo
    score := score
    reason :=
      if score > 0.8 then "High energy section"
      else if loudnessScore > 0.8 then "Prominent, loud section"
      else if tempoScore > 0.8 then "Fast-paced section"
      else "Key musical moment" }

/-- The call `[...sectionScores].sort((a, b) => b.score - a.score)`: a stable sort
descending by score (JS `Array.prototype.sort` is stable). -/
def sortByScoreDesc (l : List Highlight) : List Highlight :=
  l.insertionSort fun a b => b.score ≤ a.score

/-- The call `selectedHighlights.sort((a, b) => a.start - b.start)`: a stable sort
ascending by start. -/
def sortByStartAsc (l : List Highlight) : List Highlight :=
  l.insertionSort fun a b => a.start ≤ b.start

/-- The overlap test of the greedy loop, on a stored highlight `h` and a
candidate interval `[cStart, cEnd)` (already duration-adjusted). -/
def overlapsB (h : Highlight) (cStart cEnd : ℚ) : Bool :=
  let hEnd := h.start + h.duration
  decide ((cStart ≥ h.start ∧ cStart < hEnd) ∨
          (cEnd > h.start ∧ cEnd ≤ hEnd) ∨
          (cStart ≤ h.start ∧ cEnd ≥ hEnd))

/-- The greedy non-overlap selection loop of `findHighlightSegments`
(lines 188-217): walk the score-sorted candidates, cap each duration at
`maxDuration`, skip a candidate that overlaps an accepted one, stop once
`maxHighlights` are accepted. -/
def greedy (maxHighlights : ℤ) (maxDuration : ℚ) :
    List Highlight → List Highlight → List Highlight
  | acc, [] => acc
  | acc, c :: rest =>
    if (acc.length : ℤ) ≥ maxHighlights then acc
    else if acc.any fun h => overlapsB h c.start (c.start + min c.duration maxDuration) then
      greedy maxHighlights maxDuration acc rest
    else
      greedy maxHighlights maxDuration
        (acc ++ [{ c with duration := min c.duration maxDuration }]) rest

/-- The score-sorted section list built inside `findHighlightSegments`. -/
def sortedOf (segments : List Seg) (sections : List AnalysisSection) : List Highlight :=
  sortByScoreDesc (sections.map (scoreSection segments))

/-- The filtered candidate list of `findHighlightSegments`:
`score >= minSegmentScore && duration >= minDuration`. -/
def candidatesOf (opts : HLOptions) (segments : List Seg)
    (sections : List AnalysisSection) : List Highlight :=
  (sortedOf segments sections).filter fun s =>
    decide (s.score ≥ opts.minSegmentScore) && decide (s.duration ≥ opts.minDuration)

/-- The main (non-degraded) path of `findHighlightSegments`
(lines 124-228): score and sort the sections, filter candidates, fall
back to the single best section when no candidate qualifies, otherwise
run the greedy non-overlap selection; if that selected none, take the
top `maxHighlights` score-sorted sections ignoring overlap; otherwise
sort the selection chronologically. -/
def mainSelect (opts : HLOptions) (segments : List Seg)
    (sections : List AnalysisSection) : List Highlight :=
  if candidatesOf opts segments sections = [] ∧ sortedOf segments sections ≠ [] then
    match sortedOf segments sections with
    | [] => []
    | best :: _ =>
      [{ best with duration := min (max best.duration opts.minDuration) opts.maxDuration }]
  else if greedy opts.maxHighlights opts.maxDuration []
      (candidatesOf opts segments sections) = [] ∧ sortedOf segments sections ≠ [] then
    (jsSliceTo (sortedOf segments sections) opts.maxHighlights).map
      fun s => { s with duration := min s.duration opts.maxDuration }
  else
    sortByStartAsc
      (greedy opts.maxHighlights opts.maxDuration [] (candidatesOf opts segments sections))

/-- The function `findHighlightSegments(analysis, features, options)` from
trackAnalysis.js: the degraded-input guard (`_limited` marker, missing
`analysis`/`features`, missing or empty `sections`) returns the
synthetic highlight; a missing `segments` array makes the section map
throw, which the `catch` turns into the same synthetic highlight;
otherwise the main selection runs. -/
def findHighlightSegments (analysis : Option Analysis) (features : Option Features)
    (opts : HLOptions) : List Highlight :=
  match analysis, features with
  | some a, some f =>
    if a.limited || f.limited then [syntheticHighlight (some f)]
    else
      match a.sections with
      | some (s :: ss) =>
        match a.segments with
        | some segments => mainSelect opts segments (s :: ss)
        | none => [syntheticHighlight (some f)]
      | _ => [syntheticHighlight (some f)]
  | _, f => [syntheticHighlight f]

/-- The helper `normalizeLoudness` from audioAnalysis.js: clamp `(loudness + 60)/60`
to `[0, 1]`. -/
def normalizeLoudness (loudness : ℚ) : ℚ :=
  min (max ((loudness + 60) / 60) 0) 1

/-- The full audio-features vector, with the numeric fields read by
`calculateSectionScore`, `generateRecommendationReasons` and
`calculateTrackSimilarity`. -/
structure AudioFeatures where
  energy : ℚ
  danceability : ℚ
  valence : ℚ
  acousticness : ℚ
  instrumentalness : ℚ
  tempo : ℚ
deriving DecidableEq

/-- The function `calculateSectionScore` from audioAnalysis.js: weighted sum of the
normalized section loudness, a closeness-to-track-tempo factor, the
section confidence and the track-level energy. -/
def calculateSectionScore (s : AnalysisSection) (features : AudioFeatures) : ℚ :=
  let loudnessScore := normalizeLoudness s.loudness
  let tempoFactor := 1 - min (|s.tempo - features.tempo| / features.tempo) 1
  let confidenceFactor := s.confidence
  let energyFactor := features.energy
  loudnessScore * 0.4 + tempoFactor * 0.2 + confidenceFactor * 0.2 + energyFactor * 0.2

/-- An artist object: only `name` and `id` are read. -/
structure Artist where
  name : String
  id : String
deriving DecidableEq

/-- The track object fields read by `generateRecommendationReasons`:
`popularity` and `artists`, either possibly absent. -/
structure Track where
  popularity : Option ℚ
  artists : Option (List Artist)
deriving DecidableEq

/-- The user-preference object fields read by
`generateRecommendationReasons`. -/
structure UserPreferences where
  favoriteGenres : Option (List String)
  favoriteArtists : Option (List Artist)
deriving DecidableEq

/-- The generic filler reason of `generateRecommendationReasons`. -/
def fillerReason : String := "Musical elements that complement your listening history"

/-- The artist-based reason string (template literal on the first
artist's name). -/
def artistReason (a : Artist) : String :=
  "Created by " ++ a.name ++ ", an artist that matches your taste"

/-- The genre-preference reason string. -/
def genreReason (g : String) : String :=
  "Fits within your preferred " ++ g ++ " genre"

/-- The reasons pushed by `generateRecommendationReasons` for a non-null
track and features object, in source order: the five feature-threshold
reasons, then popularity, then the first artist, then the two
user-preference reasons. -/
def reasonsList (track : Track) (features : AudioFeatures)
    (userPreferences : Option UserPreferences) : List String :=
  (if features.energy > 0.7 then
    ["High energy track that matches your preference for energetic music"] else []) ++
  (if features.danceability > 0.7 then
    ["Highly danceable rhythm similar to other tracks you enjoy"] else []) ++
  (if features.valence > 0.7 then
    ["Upbeat and positive mood that aligns with your listening patterns"] else []) ++
  (if features.acousticness > 0.7 then
    ["Acoustic elements that match your interest in organic sounds"] else []) ++
  (if features.instrumentalness > 0.5 then
    ["Instrumental composition with minimal vocals"] else []) ++
  (if (match track.popularity with | some p => decide (p > 70) | none => false) then
    ["Currently trending track with high popularity"] else []) ++
  (match track.artists with
   | some (a :: _) => [artistReason a]
   | _ => []) ++
  (match userPreferences with
   | none => []
   | some prefs =>
     (match prefs.favoriteGenres with
      | some (g :: _) => [genreReason g]
      | _ => []) ++
     (if (match prefs.favoriteArtists, track.artists with
          | some fas, some tas => fas.any fun a => tas.any fun ta => ta.id == a.id
          | _, _ => false) then
       ["From an artist in your top played list"] else []))

/-- The function `generateRecommendationReasons(track, features, userPreferences)`
from trackAnalysis.js: `[]` when `features` is null; otherwise the
pushed reasons, with the generic filler appended when fewer than two
were pushed, sliced to the first three.  Reading `track.popularity` on a
null `track` raises a `TypeError`, modelled by `Except.error`. -/
def generateRecommendationReasons (track : Option Track) (features : Option AudioFeatures)
    (userPreferences : Option UserPreferences) : Except Unit (List String) :=
  match features with
  | none => .ok []
  | some f =>
    match track with
    | none => .error ()
    | some t =>
      let reasons := reasonsList t f userPreferences
      let reasons2 := if reasons.length < 2 then reasons ++ [fillerReason] else reasons
      .ok (reasons2.take 3)

/-- The five-dimensional squared euclidean distance used by
`calculateTrackSimilarity`. -/
def featureDist2 (a b : AudioFeatures) : ℚ :=
  (a.energy - b.energy) ^ 2 + (a.danceability - b.danceability) ^ 2 +
    (a.valence - b.valence) ^ 2 + (a.acousticness - b.acousticness) ^ 2 +
    (a.instrumentalness - b.instrumentalness) ^ 2

/-- The function `calculateTrackSimilarity(features1, features2)` from
trackAnalysis.js: `0` when either input is null, otherwise
`max(0, 1 - distance / sqrt 5)` with `distance` the euclidean distance
of the five feature dimensions. -/
noncomputable def calculateTrackSimilarity (f1 f2 : Option AudioFeatures) : ℝ :=
  match f1, f2 with
  | some a, some b =>
    max 0 (1 - Real.sqrt ((featureDist2 a b : ℚ) : ℝ) / Real.sqrt 5)
  | _, _ => 0

/-- The half-open playback interval `[start, start + duration)` of a
highlight. -/
def hlInterval (h : Highlight) : Set ℚ :=
  Set.Ico h.start (h.start + h.duration)

/-- Two highlights are mutually non-overlapping when their playback
intervals are disjoint. -/
def HighlightDisjoint (a b : Highlight) : Prop :=
  Disjoint (hlInterval a) (hlInterval b)

lemma highlightDisjoint_symm : ∀ {a b : Highlight},
    HighlightDisjoint a b → HighlightDisjoint b a :=
  fun h => h.symm

/-- When the JS overlap test of the greedy loop reports no overlap, the
stored highlight's interval and the candidate interval are disjoint. -/
lemma disjoint_of_overlapsB_false {h : Highlight} {cS cE : ℚ}
    (hf : overlapsB h cS cE = false) :
    Disjoint (Set.Ico h.start (h.start + h.duration)) (Set.Ico cS cE) := by
  unfold overlapsB at hf
  rw [decide_eq_false_iff_not] at hf
  push_neg at hf
  obtain ⟨h1, h2, h3⟩ := hf
  rw [Set.Ico_disjoint_Ico]
  rcases lt_or_le cS h.start with hcs | hcs
  · have hce : cE ≤ h.start := by
      by_contra hgt
      push_neg at hgt
      have ha := h2 hgt
      have hb := h3 hcs.le
      linarith
    calc min (h.start + h.duration) cE ≤ cE := min_le_right _ _
      _ ≤ h.start := hce
      _ ≤ max h.start cS := le_max_left _ _
  · have ha := h1 hcs
    calc min (h.start + h.duration) cE ≤ h.start + h.duration := min_le_left _ _
      _ ≤ cS := ha
      _ ≤ max h.start cS := le_max_right _ _

lemma greedy_length_mono (m : ℤ) (md : ℚ) :
    ∀ (cs acc : List Highlight), acc.length ≤ (greedy m md acc cs).length := by
  intro cs
  induction cs with
  | nil => intro acc; simp [greedy]
  | cons c rest ih =>
    intro acc
    rw [greedy]
    split
    · exact le_rfl
    · split
      · exact ih acc
      · calc acc.length
            ≤ (acc ++ [{ c with duration := min c.duration md }]).length := by simp
          _ ≤ _ := ih _

lemma greedy_length_le (m : ℤ) (md : ℚ) :
    ∀ (cs acc : List Highlight), (acc.length : ℤ) ≤ m →
      ((greedy m md acc cs).length : ℤ) ≤ m := by
  intro cs
  induction cs with
  | nil => intro acc h; simpa [greedy] using h
  | cons c rest ih =>
    intro acc h
    rw [greedy]
    split
    · exact h
    · rename_i hlt
      push_neg at hlt
      split
      · exact ih acc h
      · refine ih _ ?_
        simp only [List.length_append, List.length_cons, List.length_nil]
        push_cast
        omega

lemma greedy_duration (m : ℤ) (md : ℚ) :
    ∀ (cs acc : List Highlight), (∀ h ∈ acc, h.duration ≤ md) →
      ∀ h ∈ greedy m md acc cs, h.duration ≤ md := by
  intro cs
  induction cs with
  | nil => intro acc hacc; simpa [greedy] using hacc
  | cons c rest ih =>
    intro acc hacc
    rw [greedy]
    split
    · exact hacc
    · split
      · exact ih acc hacc
      · refine ih _ ?_
        intro h hmem
        rcases List.mem_append.mp hmem with hin | hnew
        · exact hacc h hin
        · have : h = { c with duration := min c.duration md } := by simpa using hnew
          subst this
          exact min_le_right _ _

lemma greedy_pairwise (m : ℤ) (md : ℚ) :
    ∀ (cs acc : List Highlight), acc.Pairwise HighlightDisjoint →
      (greedy m md acc cs).Pairwise HighlightDisjoint := by
  intro cs
  induction cs with
  | nil => intro acc hacc; simpa [greedy] using hacc
  | cons c rest ih =>
    intro acc hacc
    rw [greedy]
    split
    · exact hacc
    · split
      · exact ih acc hacc
      · rename_i hany
        refine ih _ ?_
        rw [List.pairwise_append]
        refine ⟨hacc, List.pairwise_singleton _ _, ?_⟩
        intro a ha b hb
        have hb' : b = { c with duration := min c.duration md } := by simpa using hb
        subst hb'
        have hfalse : overlapsB a c.start (c.start + min c.duration md) = false := by
          have := List.any_eq_false.mp (Bool.eq_false_iff.mpr hany) a ha
          simpa using this
        exact disjoint_of_overlapsB_false hfalse

instance : IsTotal Highlight fun a b => a.start ≤ b.start :=
  ⟨fun a b => le_total a.start b.start⟩

instance : IsTrans Highlight fun a b => a.start ≤ b.start :=
  ⟨fun _ _ _ hab hbc => le_trans hab hbc⟩

lemma sortedOf_length (segments : List Seg) (secs : List AnalysisSection) :
    (sortedOf segments secs).length = secs.length := by
  unfold sortedOf sortByScoreDesc
  rw [List.length_insertionSort, List.length_map]

lemma sortedOf_ne_nil {segments : List Seg} {secs : List AnalysisSection} (h : secs ≠ []) :
    sortedOf segments secs ≠ [] := by
  intro hnil
  apply h
  apply List.length_eq_zero.mp
  rw [← sortedOf_length segments secs, hnil]
  rfl

lemma greedy_nil_ne_nil (m : ℤ) (md : ℚ) (hm : 1 ≤ m)
    (c : Highlight) (rest : List Highlight) :
    greedy m md [] (c :: rest) ≠ [] := by
  rw [greedy]
  rw [if_neg (by simp; omega), if_neg (by simp)]
  intro hnil
  rw [List.nil_append] at hnil
  have hlen := greedy_length_mono m md rest [{ c with duration := min c.duration md }]
  rw [hnil] at hlen
  simp at hlen

lemma mainSelect_duration (opts : HLOptions) (segments : List Seg)
    (secs : List AnalysisSection) :
    ∀ h ∈ mainSelect opts segments secs, h.duration ≤ opts.maxDuration := by
  intro h hmem
  unfold mainSelect at hmem
  split at hmem
  · split at hmem
    · simp at hmem
    · rename_i best rest _
      have heq : h = { best with duration := min (max best.duration opts.minDuration) opts.maxDuration } := by
        simpa using hmem
      subst heq
      exact min_le_right _ _
  · split at hmem
    · rcases List.mem_map.mp hmem with ⟨s, _, rfl⟩
      exact min_le_right _ _
    · rw [sortByStartAsc, List.mem_insertionSort] at hmem
      exact greedy_duration _ _ _ [] (by simp) h hmem

lemma mainSelect_ne_nil (opts : HLOptions) (segments : List Seg)
    (secs : List AnalysisSection) (hm : 1 ≤ opts.maxHighlights) (hs : secs ≠ []) :
    mainSelect opts segments secs ≠ [] := by
  have hsorted : sortedOf segments secs ≠ [] := sortedOf_ne_nil hs
  unfold mainSelect
  split
  · split
    · rename_i heq
      exact absurd heq hsorted
    · simp
  · rename_i hnot1
    split
    · rename_i hcond2
      exfalso
      obtain ⟨hgnil, _⟩ := hcond2
      have hcand : candidatesOf opts segments secs ≠ [] := fun hc => hnot1 ⟨hc, hsorted⟩
      cases hc : candidatesOf opts segments secs with
      | nil => exact hcand hc
      | cons c rest => exact greedy_nil_ne_nil _ _ hm c rest (hc ▸ hgnil)
    · rename_i hnot2
      have hg : greedy opts.maxHighlights opts.maxDuration []
          (candidatesOf opts segments secs) ≠ [] := fun hgeq => hnot2 ⟨hgeq, hsorted⟩
      intro hnil
      apply hg
      apply List.length_eq_zero.mp
      have hz : (sortByStartAsc (greedy opts.maxHighlights opts.maxDuration []
          (candidatesOf opts segments secs))).length = 0 := by rw [hnil]; rfl
      rwa [sortByStartAsc, List.length_insertionSort] at hz

lemma mainSelect_pairwise (opts : HLOptions) (segments : List Seg)
    (secs : List AnalysisSection) (hm : 1 ≤ opts.maxHighlights) :
    (mainSelect opts segments secs).Pairwise HighlightDisjoint := by
  unfold mainSelect
  split
  · split
    · exact List.Pairwise.nil
    · exact List.pairwise_singleton _ _
  · rename_i hnot1
    split
    · rename_i hcond2
      exfalso
      obtain ⟨hgnil, hsorted⟩ := hcond2
      have hcand : candidatesOf opts segments secs ≠ [] := fun hc => hnot1 ⟨hc, hsorted⟩
      cases hc : candidatesOf opts segments secs with
      | nil => exact hcand hc
      | cons c rest => exact greedy_nil_ne_nil _ _ hm c rest (hc ▸ hgnil)
    · have hp := greedy_pairwise opts.maxHighlights opts.maxDuration
        (candidatesOf opts segments secs) [] List.Pairwise.nil
      have hperm : List.Perm (sortByStartAsc (greedy opts.maxHighlights opts.maxDuration []
          (candidatesOf opts segments secs))) (greedy opts.maxHighlights opts.maxDuration []
          (candidatesOf opts segments secs)) := List.perm_insertionSort _ _
      exact (hperm.pairwise_iff fun hd => highlightDisjoint_symm hd).mpr hp

lemma mainSelect_sorted (opts : HLOptions) (segments : List Seg)
    (secs : List AnalysisSection) (hm : 0 ≤ opts.maxHighlights) :
    (mainSelect opts segments secs).Sorted fun a b : Highlight => a.start ≤ b.start := by
  unfold mainSelect
  split
  · split
    · exact List.sorted_nil
    · exact List.sorted_singleton _
  · rename_i hnot1
    split
    · rename_i hcond2
      rcases eq_or_lt_of_le hm with hm0 | hm1
      · rw [← hm0]
        simp [jsSliceTo]
      · exfalso
        obtain ⟨hgnil, hsorted⟩ := hcond2
        have hcand : candidatesOf opts segments secs ≠ [] := fun hc => hnot1 ⟨hc, hsorted⟩
        cases hc : candidatesOf opts segments secs with
        | nil => exact hcand hc
        | cons c rest => exact greedy_nil_ne_nil _ _ (by omega) c rest (hc ▸ hgnil)
    · rw [sortByStartAsc]
      exact List.sorted_insertionSort _ _

lemma mainSelect_length (opts : HLOptions) (segments : List Seg)
    (secs : List AnalysisSection) (hm : 1 ≤ opts.maxHighlights) :
    ((mainSelect opts segments secs).length : ℤ) ≤ opts.maxHighlights := by
  unfold mainSelect
  split
  · split
    · simp only [List.length_nil]
      omega
    · simp only [List.length_cons, List.length_nil]
      omega
  · split
    · have h0 : (0:ℤ) ≤ opts.maxHighlights := by omega
      rw [jsSliceTo, if_pos h0]
      simp only [List.length_map, List.length_take]
      omega
    · rw [sortByStartAsc, List.length_insertionSort]
      refine greedy_length_le _ _ _ [] ?_
      simp only [List.length_nil, Nat.cast_zero]
      omega

/-- Every call of `findHighlightSegments` either takes a fallback branch
(yielding the synthetic highlight) or runs the main selection on a
non-empty sections array and a present segments array. -/
lemma findHighlightSegments_eq (analysis : Option Analysis) (features : Option Features)
    (opts : HLOptions) :
    findHighlightSegments analysis features opts = [syntheticHighlight features] ∨
    ∃ a f s ss segs, analysis = some a ∧ features = some f ∧
      a.limited = false ∧ f.limited = false ∧
      a.sections = some (s :: ss) ∧ a.segments = some segs ∧
      findHighlightSegments analysis features opts = mainSelect opts segs (s :: ss) := by
  cases analysis with
  | none => left; rfl
  | some a =>
    cases features with
    | none => left; rfl
    | some f =>
      by_cases hl : (a.limited || f.limited) = true
      · left
        simp only [findHighlightSegments, if_pos hl]
      · have hl2 : a.limited = false ∧ f.limited = false := by
          rcases Bool.or_eq_false_iff.mp (Bool.eq_false_iff.mpr hl) with ⟨h1, h2⟩
          exact ⟨h1, h2⟩
        cases hsec : a.sections with
        | none =>
          left
          simp only [findHighlightSegments, if_neg hl, hsec]
        | some secs =>
          cases secs with
          | nil =>
            left
            simp only [findHighlightSegments, if_neg hl, hsec]
          | cons s ss =>
            cases hseg : a.segments with
            | none =>
              left
              simp only [findHighlightSegments, if_neg hl, hsec, hseg]
            | some segs =>
              right
              refine ⟨a, f, s, ss, segs, rfl, rfl, hl2.1, hl2.2, hsec, hseg, ?_⟩
              simp only [findHighlightSegments, if_neg hl, hsec, hseg]

/-- The degraded-input conditions named by the specification: missing
analysis, missing or empty sections array, or a `_limited` marker on
either input. -/
def degradedInput (analysis : Option Analysis) (features : Option Features) : Prop :=
  analysis = none ∨
  (∃ a, analysis = some a ∧
    (a.sections = none ∨ a.sections = some [] ∨ a.limited = true)) ∨
  (∃ f, features = some f ∧ f.limited = true)

/-- C1 (amended): on every degraded input, `findHighlightSegments`
returns exactly one synthetic Highlight with `start = 0`, hard-coded
`duration = 30` (regardless of `options.maxDuration` and of the track
duration), `score = 0.7`, reason `"Preview segment"`, and the defaults
`energy = 0.5`, `loudness = -10`, `tempo = 120` when the corresponding
feature field is unknown. -/
theorem degraded_fallback (analysis : Option Analysis) (features : Option Features)
    (opts : HLOptions) (hdeg : degradedInput analysis features) :
    findHighlightSegments analysis features opts = [syntheticHighlight features] ∧
    (syntheticHighlight features).start = 0 ∧
    (syntheticHighlight features).duration = 30 ∧
    (syntheticHighlight features).score = 0.7 ∧
    (syntheticHighlight features).reason = "Preview segment" ∧
    (features.bind Features.energy = none → (syntheticHighlight features).energy = 0.5) ∧
    (features.bind Features.loudness = none → (syntheticHighlight features).loudness = -10) ∧
    (features.bind Features.tempo = none → (syntheticHighlight features).tempo = 120) := by
  refine ⟨?_, rfl, rfl, rfl, rfl, ?_, ?_, ?_⟩
  · rcases findHighlightSegments_eq analysis features opts with heq | heq
    · exact heq
    · exfalso
      obtain ⟨a, f, s, ss, segs, ha, hf, hal, hfl, hsec, hseg, _⟩ := heq
      rcases hdeg with h0 | ⟨a', ha', hbad⟩ | ⟨f', hf', hlim⟩
      · rw [h0] at ha; exact Option.noConfusion ha
      · have haa : a' = a := by rw [ha'] at ha; exact Option.some.inj ha
        subst haa
        rcases hbad with hb | hb | hb
        · rw [hb] at hsec; exact Option.noConfusion hsec
        · rw [hb] at hsec
          injection hsec with hx
          exact List.noConfusion hx
        · rw [hal] at hb
          exact Bool.noConfusion hb
      · have hff : f' = f := by rw [hf'] at hf; exact Option.some.inj hf
        subst hff
        rw [hfl] at hlim
        exact Bool.noConfusion hlim
  · intro h
    simp only [syntheticHighlight, h, jsOrQ]
  · intro h
    simp only [syntheticHighlight, h, jsOrQ]
  · intro h
    simp only [syntheticHighlight, h, jsOrQ]

/-- Witness for C1: the null-analysis, null-features call is degraded and
returns the synthetic highlight with duration 30. -/
theorem degraded_fallback_witness :
    findHighlightSegments none none defaultOptions = [syntheticHighlight none] ∧
    (syntheticHighlight none).duration = 30 :=
  ⟨(degraded_fallback none none defaultOptions (Or.inl rfl)).1,
   (degraded_fallback none none defaultOptions (Or.inl rfl)).2.2.1⟩

/-- Options with `maxDuration = 20`, below the hard-coded synthetic
duration of 30. -/
def cexOptsDur : HLOptions :=
  { maxHighlights := 3, minDuration := 20, maxDuration := 20, minSegmentScore := 0.6 }

/-- Counterexample to C1 as stated: with `maxDuration = 20` and a null
analysis, the synthetic highlight has duration 30, not
`min(maxDuration, trackDuration-or-30) = 20`. -/
theorem degraded_fallback_cex :
    (findHighlightSegments none none cexOptsDur).map Highlight.duration = [30] ∧
    min cexOptsDur.maxDuration (30 : ℚ) ≠ 30 := by
  constructor
  · rfl
  · show min (20 : ℚ) 30 ≠ 30
    norm_num

/-- C3 (amended): every returned highlight has
`duration ≤ max(options.maxDuration, 30)`: the non-degraded paths cap at
`maxDuration`, while the synthetic fallback always uses the hard-coded
30. -/
theorem duration_cap (analysis : Option Analysis) (features : Option Features)
    (opts : HLOptions) :
    ∀ h ∈ findHighlightSegments analysis features opts,
      h.duration ≤ max opts.maxDuration 30 := by
  intro h hmem
  rcases findHighlightSegments_eq analysis features opts with heq | heq
  · rw [heq, List.mem_singleton] at hmem
    subst hmem
    exact le_max_right _ _
  · obtain ⟨a, f, s, ss, segs, _, _, _, _, _, _, heq⟩ := heq
    rw [heq] at hmem
    exact le_trans (mainSelect_duration opts segs (s :: ss) h hmem) (le_max_left _ _)

/-- Witness for C3 (amended) at the degraded input. -/
theorem duration_cap_witness :
    syntheticHighlight none ∈ findHighlightSegments none none defaultOptions ∧
    (syntheticHighlight none).duration ≤ max defaultOptions.maxDuration 30 :=
  ⟨show syntheticHighlight none ∈ [syntheticHighlight none] from List.mem_singleton.mpr rfl,
   duration_cap none none defaultOptions (syntheticHighlight none)
     (show syntheticHighlight none ∈ [syntheticHighlight none] from List.mem_singleton.mpr rfl)⟩

/-- Counterexample to C3 as stated: on the degraded path with
`maxDuration = 20` the returned highlight has duration `30 > 20`. -/
theorem duration_cap_cex :
    syntheticHighlight none ∈ findHighlightSegments none none cexOptsDur ∧
    ¬ (syntheticHighlight none).duration ≤ cexOptsDur.maxDuration := by
  constructor
  · show syntheticHighlight none ∈ [syntheticHighlight none]
    exact List.mem_singleton.mpr rfl
  · show ¬ (30 : ℚ) ≤ 20
    norm_num

/-- C6: with an integer `maxHighlights ≥ 1` the returned highlights are
mutually non-overlapping (their half-open playback intervals are
pairwise disjoint), and the greedy pass accepts at least the first
candidate of any non-empty candidate list, so the overlap-ignoring
fallback branch is never executed. -/
theorem highlights_nonoverlapping (analysis : Option Analysis) (features : Option Features)
    (opts : HLOptions) (hm : 1 ≤ opts.maxHighlights) :
    (findHighlightSegments analysis features opts).Pairwise HighlightDisjoint ∧
    ∀ cands : List Highlight, cands ≠ [] →
      greedy opts.maxHighlights opts.maxDuration [] cands ≠ [] := by
  constructor
  · rcases findHighlightSegments_eq analysis features opts with heq | heq
    · rw [heq]
      exact List.pairwise_singleton _ _
    · obtain ⟨a, f, s, ss, segs, _, _, _, _, _, _, heq⟩ := heq
      rw [heq]
      exact mainSelect_pairwise opts segs (s :: ss) hm
  · intro cands hc
    cases cands with
    | nil => exact absurd rfl hc
    | cons c rest => exact greedy_nil_ne_nil _ _ hm c rest

/-- Witness for C6 at the default options. -/
theorem highlights_nonoverlapping_witness :
    (1 : ℤ) ≤ defaultOptions.maxHighlights ∧
    (findHighlightSegments none none defaultOptions).Pairwise HighlightDisjoint :=
  ⟨by decide, (highlights_nonoverlapping none none defaultOptions (by decide)).1⟩

/-- C7 (amended): for every input with `maxHighlights ≥ 0` the output is
sorted ascending by start time. -/
theorem highlights_sorted (analysis : Option Analysis) (features : Option Features)
    (opts : HLOptions) (hm : 0 ≤ opts.maxHighlights) :
    (findHighlightSegments analysis features opts).Sorted
      fun a b : Highlight => a.start ≤ b.start := by
  rcases findHighlightSegments_eq analysis features opts with heq | heq
  · rw [heq]
    exact List.sorted_singleton _
  · obtain ⟨a, f, s, ss, segs, _, _, _, _, _, _, heq⟩ := heq
    rw [heq]
    exact mainSelect_sorted opts segs (s :: ss) hm

/-- Witness for C7 (amended) at the default options. -/
theorem highlights_sorted_witness :
    (0 : ℤ) ≤ defaultOptions.maxHighlights ∧
    (findHighlightSegments none none defaultOptions).Sorted
      (fun a b : Highlight => a.start ≤ b.start) :=
  ⟨by decide, highlights_sorted none none defaultOptions (by decide)⟩

/-- Low-energy section starting at 0. -/
def secA : AnalysisSection :=
  { start := 0, duration := 25, loudness := -15, tempo := 100, energy := 0.1, confidence := 0.5 }

/-- Mid-energy section starting at 10. -/
def secB : AnalysisSection :=
  { start := 10, duration := 25, loudness := -15, tempo := 100, energy := 0.5, confidence := 0.5 }

/-- High-energy section starting at 50. -/
def secC : AnalysisSection :=
  { start := 50, duration := 25, loudness := -15, tempo := 100, energy := 0.9, confidence := 0.5 }

/-- Analysis with three sections in chronological order and an empty
segments array. -/
def cexAnalysisSorted : Analysis :=
  { sections := some [secA, secB, secC], segments := some [], limited := false }

/-- An ordinary non-limited features object. -/
def plainFeatures : Features :=
  { energy := some 0.8, loudness := some (-7), tempo := some 120, limited := false }

/-- Options with the JS value `maxHighlights = -1`. -/
def cexOptsNeg : HLOptions :=
  { maxHighlights := -1, minDuration := 20, maxDuration := 30, minSegmentScore := 0.6 }

/-- Counterexample to C7 as stated: with `maxHighlights = -1` the greedy
loop breaks immediately, the overlap-ignoring fallback slices the
score-sorted list, and the output starts `[50, 10]` are not in
chronological order. -/
theorem highlights_sorted_cex :
    (findHighlightSegments (some cexAnalysisSorted) (some plainFeatures) cexOptsNeg).map
        Highlight.start = [50, 10] ∧
    ¬ (findHighlightSegments (some cexAnalysisSorted) (some plainFeatures) cexOptsNeg).Sorted
        (fun a b : Highlight => a.start ≤ b.start) := by
  have hmap : (findHighlightSegments (some cexAnalysisSorted) (some plainFeatures)
      cexOptsNeg).map Highlight.start = [50, 10] := by
    norm_num [findHighlightSegments, cexAnalysisSorted, plainFeatures, cexOptsNeg,
      mainSelect, candidatesOf, sortedOf, sortByScoreDesc, sortByStartAsc, scoreSection,
      secA, secB, secC, greedy, jsSliceTo, overlapsB, List.insertionSort,
      List.orderedInsert, List.filter]
    split
    · rename_i hfalse
      simp at hfalse
    · norm_num [List.take]
  refine ⟨hmap, ?_⟩
  intro hsort
  have hp : ((findHighlightSegments (some cexAnalysisSorted) (some plainFeatures)
      cexOptsNeg).map Highlight.start).Pairwise (· ≤ ·) :=
    List.pairwise_map.mpr hsort
  rw [hmap] at hp
  have h50 : (50 : ℚ) ≤ 10 := (List.pairwise_cons.mp hp).1 10 (by simp)
  norm_num at h50

/-- C8 (amended): for every input with `maxHighlights ≥ 1` the number of
returned highlights is at most `maxHighlights`. -/
theorem highlights_count (analysis : Option Analysis) (features : Option Features)
    (opts : HLOptions) (hm : 1 ≤ opts.maxHighlights) :
    ((findHighlightSegments analysis features opts).length : ℤ) ≤ opts.maxHighlights := by
  rcases findHighlightSegments_eq analysis features opts with heq | heq
  · rw [heq]
    simpa using hm
  · obtain ⟨a, f, s, ss, segs, _, _, _, _, _, _, heq⟩ := heq
    rw [heq]
    exact mainSelect_length opts segs (s :: ss) hm

/-- Witness for C8 (amended) at the default options. -/
theorem highlights_count_witness :
    (1 : ℤ) ≤ defaultOptions.maxHighlights ∧
    ((findHighlightSegments none none defaultOptions).length : ℤ) ≤
      defaultOptions.maxHighlights :=
  ⟨by decide, highlights_count none none defaultOptions (by decide)⟩

/-- Options with `maxHighlights = 0`. -/
def cexOptsZero : HLOptions :=
  { maxHighlights := 0, minDuration := 20, maxDuration := 30, minSegmentScore := 0.6 }

/-- Counterexample to C8 as stated: on the degraded path the synthetic
singleton is returned even when `maxHighlights = 0`. -/
theorem highlights_count_cex :
    ¬ ((findHighlightSegments none none cexOptsZero).length : ℤ) ≤
      cexOptsZero.maxHighlights := by
  show ¬ ((1 : ℕ) : ℤ) ≤ 0
  norm_num

/-- C4 (amended): with `maxHighlights ≥ 1`, a non-null analysis with a
non-empty sections array always produces at least one highlight, and an
input with no section data produces exactly the synthetic default
highlight. -/
theorem highlights_nonempty (analysis : Option Analysis) (features : Option Features)
    (opts : HLOptions) (hm : 1 ≤ opts.maxHighlights) :
    (∀ a, analysis = some a → (∃ s ss, a.sections = some (s :: ss)) →
      findHighlightSegments analysis features opts ≠ []) ∧
    ((analysis = none ∨ ∃ a, analysis = some a ∧
        (a.sections = none ∨ a.sections = some [])) →
      findHighlightSegments analysis features opts = [syntheticHighlight features]) := by
  constructor
  · intro a ha hsec
    rcases findHighlightSegments_eq analysis features opts with heq | heq
    · rw [heq]
      simp
    · obtain ⟨a', f, s, ss, segs, _, _, _, _, _, _, heq⟩ := heq
      rw [heq]
      exact mainSelect_ne_nil opts segs (s :: ss) hm (by simp)
  · intro hnone
    rcases findHighlightSegments_eq analysis features opts with heq | heq
    · exact heq
    · exfalso
      obtain ⟨a, f, s, ss, segs, ha, hf, _, _, hsec, hseg, _⟩ := heq
      rcases hnone with h0 | ⟨a', ha', hbad⟩
      · rw [h0] at ha
        exact Option.noConfusion ha
      · have haa : a' = a := by rw [ha'] at ha; exact Option.some.inj ha
        subst haa
        rcases hbad with hb | hb
        · rw [hb] at hsec
          exact Option.noConfusion hsec
        · rw [hb] at hsec
          injection hsec with hx
          exact List.noConfusion hx

/-- Analysis carrying a single section. -/
def sampleAnalysis : Analysis :=
  { sections := some [secB], segments := some [], limited := false }

/-- Witness for C4 (amended): a one-section analysis yields a non-empty
result, and a null analysis yields exactly the synthetic default. -/
theorem highlights_nonempty_witness :
    findHighlightSegments (some sampleAnalysis) (some plainFeatures) defaultOptions ≠ [] ∧
    findHighlightSegments none (some plainFeatures) defaultOptions =
      [syntheticHighlight (some plainFeatures)] :=
  ⟨(highlights_nonempty (some sampleAnalysis) (some plainFeatures) defaultOptions
      (by decide)).1 sampleAnalysis rfl ⟨secB, [], rfl⟩,
   (highlights_nonempty none (some plainFeatures) defaultOptions (by decide)).2 (Or.inl rfl)⟩

/-- Analysis with one high-scoring section. -/
def cexAnalysisOne : Analysis :=
  { sections := some [secC], segments := some [], limited := false }

/-- Counterexample to C4 as stated: with the options value
`maxHighlights = 0` and a one-section analysis whose section passes the
candidate filter, the greedy loop accepts nothing and the
overlap-ignoring fallback slices zero elements, so the result is empty. -/
theorem highlights_nonempty_cex :
    cexAnalysisOne.sections = some [secC] ∧
    findHighlightSegments (some cexAnalysisOne) (some plainFeatures) cexOptsZero = [] := by
  refine ⟨rfl, ?_⟩
  norm_num [findHighlightSegments, cexAnalysisOne, plainFeatures, cexOptsZero, mainSelect,
    candidatesOf, sortedOf, sortByScoreDesc, sortByStartAsc, scoreSection, secC, greedy,
    jsSliceTo, List.insertionSort, List.orderedInsert, List.filter]

/-- C2 (amended): both section scores are monotone non-decreasing in
section loudness; the trackAnalysis score is monotone in section energy
and independent of confidence, while `calculateSectionScore` is monotone
in section confidence and in track-level energy and independent of
duration.  Neither score has a duration bonus. -/
theorem section_score_monotone :
    (∀ (segs : List Seg) (s : AnalysisSection) (l₁ l₂ : ℚ), l₁ ≤ l₂ →
      (scoreSection segs { s with loudness := l₁ }).score ≤
        (scoreSection segs { s with loudness := l₂ }).score) ∧
    (∀ (segs : List Seg) (s : AnalysisSection) (e₁ e₂ : ℚ), e₁ ≤ e₂ →
      (scoreSection segs { s with energy := e₁ }).score ≤
        (scoreSection segs { s with energy := e₂ }).score) ∧
    (∀ (s : AnalysisSection) (f : AudioFeatures) (l₁ l₂ : ℚ), l₁ ≤ l₂ →
      calculateSectionScore { s with loudness := l₁ } f ≤
        calculateSectionScore { s with loudness := l₂ } f) ∧
    (∀ (s : AnalysisSection) (f : AudioFeatures) (c₁ c₂ : ℚ), c₁ ≤ c₂ →
      calculateSectionScore { s with confidence := c₁ } f ≤
        calculateSectionScore { s with confidence := c₂ } f) ∧
    (∀ (s : AnalysisSection) (f : AudioFeatures) (e₁ e₂ : ℚ), e₁ ≤ e₂ →
      calculateSectionScore s { f with energy := e₁ } ≤
        calculateSectionScore s { f with energy := e₂ }) := by
  have h30 : (0 : ℚ) < 30 := by norm_num
  have h60 : (0 : ℚ) < 60 := by norm_num
  refine ⟨?_, ?_, ?_, ?_, ?_⟩
  · intro segs s l₁ l₂ hle
    simp only [scoreSection]
    have hclamp : min 1 (max 0 ((l₁ + 30) / 30)) ≤ min 1 (max 0 ((l₂ + 30) / 30)) := by
      refine min_le_min le_rfl (max_le_max le_rfl ?_)
      exact (div_le_div_iff_of_pos_right h30).mpr (by linarith)
    linarith
  · intro segs s e₁ e₂ hle
    simp only [scoreSection]
    linarith
  · intro s f l₁ l₂ hle
    simp only [calculateSectionScore, normalizeLoudness]
    have hclamp : min (max ((l₁ + 60) / 60) 0) 1 ≤ min (max ((l₂ + 60) / 60) 0) 1 := by
      refine min_le_min (max_le_max ?_ le_rfl) le_rfl
      exact (div_le_div_iff_of_pos_right h60).mpr (by linarith)
    linarith
  · intro s f c₁ c₂ hle
    simp only [calculateSectionScore, normalizeLoudness]
    linarith
  · intro s f e₁ e₂ hle
    simp only [calculateSectionScore, normalizeLoudness]
    linarith

/-- Witness for C2 (amended) at a concrete loudness pair. -/
theorem section_score_monotone_witness :
    (0 : ℚ) ≤ 1 ∧
    (scoreSection [] { secB with loudness := 0 }).score ≤
      (scoreSection [] { secB with loudness := 1 }).score :=
  ⟨by norm_num, section_score_monotone.1 [] secB 0 1 (by norm_num)⟩

/-- A section with duration 25, inside the claimed preferred 20-40s
window. -/
def secInBand : AnalysisSection :=
  { start := 0, duration := 25, loudness := -15, tempo := 100, energy := 0.5, confidence := 0.5 }

/-- The same section with duration 8, below the claimed 10s penalty
threshold. -/
def secShort : AnalysisSection := { secInBand with duration := 8 }

/-- Five segments starting inside both sections. -/
def cexSegs : List Seg := [⟨0⟩, ⟨1⟩, ⟨2⟩, ⟨3⟩, ⟨4⟩]

/-- Counterexample to C2 as stated: two sections that differ only in
duration, one inside the claimed preferred 20-40s band and one shorter
than 10s; the shorter one receives a strictly greater score (the segment
density term rewards short sections), so there is no duration bonus. -/
theorem section_score_duration_cex :
    secShort = { secInBand with duration := 8 } ∧
    (20 : ℚ) ≤ secInBand.duration ∧ secInBand.duration ≤ 40 ∧
    secShort.duration < 10 ∧
    (scoreSection cexSegs secInBand).score < (scoreSection cexSegs secShort).score := by
  refine ⟨rfl, by norm_num [secInBand], by norm_num [secInBand], by norm_num [secShort, secInBand], ?_⟩
  norm_num [scoreSection, secInBand, secShort, cexSegs, List.filter]

/-- C5 (amended): `generateRecommendationReasons` returns `[]` for null
features, returns a value for every non-null track, but raises a
`TypeError` (modelled by `Except.error`) when the track is null and the
features are not; `findHighlightSegments` and
`calculateTrackSimilarity` are total by construction. -/
theorem engine_totality (track : Option Track) (features : Option AudioFeatures)
    (prefs : Option UserPreferences) :
    (features = none → generateRecommendationReasons track features prefs = .ok []) ∧
    (∀ t, track = some t →
      ∃ l, generateRecommendationReasons track features prefs = .ok l) ∧
    (track = none → ∀ f, features = some f →
      generateRecommendationReasons track features prefs = .error ()) := by
  refine ⟨?_, ?_, ?_⟩
  · intro h
    subst h
    rfl
  · intro t ht
    subst ht
    cases features with
    | none => exact ⟨[], rfl⟩
    | some f => exact ⟨_, rfl⟩
  · intro ht f hf
    subst ht
    subst hf
    rfl

/-- A feature vector with every component zero. -/
def zeroVec : AudioFeatures :=
  { energy := 0, danceability := 0, valence := 0, acousticness := 0,
    instrumentalness := 0, tempo := 100 }

/-- Witness for C5 (amended). -/
theorem engine_totality_witness :
    generateRecommendationReasons (some { popularity := none, artists := none }) none none =
      .ok [] ∧
    generateRecommendationReasons none (some zeroVec) none = .error () :=
  ⟨(engine_totality (some { popularity := none, artists := none }) none none).1 rfl,
   (engine_totality none (some zeroVec) none).2.2 rfl zeroVec rfl⟩

/-- Counterexample to C5 as stated: with a null track and non-null
features, `generateRecommendationReasons` dereferences
`track.popularity` on null and throws instead of returning a value. -/
theorem engine_totality_cex :
    generateRecommendationReasons none (some zeroVec) none = .error () := rfl

/-- C9: `calculateTrackSimilarity` is symmetric, equals 1 on identical
inputs, always lies in `[0, 1]`, equals
`max 0 (1 - euclideanDistance / sqrt 5)` over the five feature
dimensions, and returns 0 when either input is absent. -/
theorem similarity_props :
    (∀ f1 f2 : Option AudioFeatures,
      calculateTrackSimilarity f1 f2 = calculateTrackSimilarity f2 f1) ∧
    (∀ f : AudioFeatures, calculateTrackSimilarity (some f) (some f) = 1) ∧
    (∀ f1 f2 : Option AudioFeatures,
      0 ≤ calculateTrackSimilarity f1 f2 ∧ calculateTrackSimilarity f1 f2 ≤ 1) ∧
    (∀ a b : AudioFeatures, calculateTrackSimilarity (some a) (some b) =
      max 0 (1 - Real.sqrt (((a.energy - b.energy) ^ 2 +
        (a.danceability - b.danceability) ^ 2 + (a.valence - b.valence) ^ 2 +
        (a.acousticness - b.acousticness) ^ 2 +
        (a.instrumentalness - b.instrumentalness) ^ 2 : ℚ) : ℝ) / Real.sqrt 5)) ∧
    (∀ f : Option AudioFeatures,
      calculateTrackSimilarity none f = 0 ∧ calculateTrackSimilarity f none = 0) := by
  refine ⟨?_, ?_, ?_, ?_, ?_⟩
  · intro f1 f2
    cases f1 with
    | none => cases f2 <;> rfl
    | some a =>
      cases f2 with
      | none => rfl
      | some b =>
        have hd : featureDist2 a b = featureDist2 b a := by
          unfold featureDist2
          ring
        simp only [calculateTrackSimilarity, hd]
  · intro f
    have hd : featureDist2 f f = 0 := by
      unfold featureDist2
      ring
    simp only [calculateTrackSimilarity, hd]
    norm_num
  · intro f1 f2
    cases f1 with
    | none =>
      cases f2 <;> exact ⟨le_refl 0, by norm_num [calculateTrackSimilarity]⟩
    | some a =>
      cases f2 with
      | none => exact ⟨le_refl 0, by norm_num [calculateTrackSimilarity]⟩
      | some b =>
        constructor
        · exact le_max_left 0 _
        · refine max_le (by norm_num) ?_
          have hnn : 0 ≤ Real.sqrt ((featureDist2 a b : ℚ) : ℝ) / Real.sqrt 5 :=
            div_nonneg (Real.sqrt_nonneg _) (Real.sqrt_nonneg _)
          linarith
  · intro a b
    simp only [calculateTrackSimilarity, featureDist2]
  · intro f
    cases f <;> exact ⟨rfl, rfl⟩

/-- The list of every reason string `generateRecommendationReasons` can
push, in its fixed source order (the priority order), ending with the
generic filler. -/
def reasonsTemplate (t : Track) (prefs : Option UserPreferences) : List String :=
  ["High energy track that matches your preference for energetic music"] ++
  (["Highly danceable rhythm similar to other tracks you enjoy"] ++
  (["Upbeat and positive mood that aligns with your listening patterns"] ++
  (["Acoustic elements that match your interest in organic sounds"] ++
  (["Instrumental composition with minimal vocals"] ++
  (["Currently trending track with high popularity"] ++
  ((match t.artists with | some (a :: _) => [artistReason a] | _ => []) ++
  ((match prefs with
    | none => []
    | some p =>
      match p.favoriteGenres with
      | some (g :: _) => [genreReason g]
      | _ => []) ++
  (["From an artist in your top played list"] ++ [fillerReason]))))))))

lemma ite_singleton_sublist {α : Type} (c : Prop) [Decidable c] (x : α) :
    (if c then [x] else []).Sublist [x] := by
  split
  · exact List.Sublist.refl _
  · exact List.nil_sublist _

/-- The pushed reasons followed by the filler form a sublist of the
priority template. -/
lemma reasonsList_filler_sublist (t : Track) (f : AudioFeatures)
    (prefs : Option UserPreferences) :
    (reasonsList t f prefs ++ [fillerReason]).Sublist (reasonsTemplate t prefs) := by
  unfold reasonsList reasonsTemplate
  simp only [List.append_assoc]
  refine List.Sublist.append (ite_singleton_sublist _ _) ?_
  refine List.Sublist.append (ite_singleton_sublist _ _) ?_
  refine List.Sublist.append (ite_singleton_sublist _ _) ?_
  refine List.Sublist.append (ite_singleton_sublist _ _) ?_
  refine List.Sublist.append (ite_singleton_sublist _ _) ?_
  refine List.Sublist.append (ite_singleton_sublist _ _) ?_
  refine List.Sublist.append (List.Sublist.refl _) ?_
  cases prefs with
  | none =>
    exact (List.nil_sublist _).append ((List.nil_sublist _).append (List.Sublist.refl _))
  | some p =>
    rw [List.append_assoc]
    refine List.Sublist.append (List.Sublist.refl _) ?_
    exact List.Sublist.append (ite_singleton_sublist _ _) (List.Sublist.refl _)

/-- C10 (amended): for a non-null track object,
`generateRecommendationReasons` returns at most 3 reasons, drawn in the
fixed priority order; the generic filler is appended when fewer than two
reasons in total (features, popularity, artist and preference checks
combined) were pushed; the result is non-empty whenever features is
non-null, and `[]` when features is null. -/
theorem recommendation_reasons_spec (track : Option Track) (features : Option AudioFeatures)
    (prefs : Option UserPreferences) :
    (features = none → generateRecommendationReasons track features prefs = .ok []) ∧
    (∀ t f, track = some t → features = some f →
      ∃ l, generateRecommendationReasons track features prefs = .ok l ∧
        l.length ≤ 3 ∧ l ≠ [] ∧ l.Sublist (reasonsTemplate t prefs) ∧
        ((reasonsList t f prefs).length < 2 → fillerReason ∈ l)) := by
  constructor
  · intro h
    subst h
    cases track <;> rfl
  · intro t f ht hf
    subst ht
    subst hf
    refine ⟨_, rfl, ?_, ?_, ?_, ?_⟩
    · exact List.length_take_le _ _
    · apply List.length_pos.mp
      rw [List.length_take]
      by_cases hc : (reasonsList t f prefs).length < 2
      · rw [if_pos hc]
        simp only [List.length_append, List.length_cons, List.length_nil]
        omega
      · rw [if_neg hc]
        omega
    · refine List.Sublist.trans (List.take_sublist _ _) ?_
      refine List.Sublist.trans ?_ (reasonsList_filler_sublist t f prefs)
      by_cases hc : (reasonsList t f prefs).length < 2
      · rw [if_pos hc]
      · rw [if_neg hc]
        exact List.sublist_append_left _ _
    · intro hc
      rw [if_pos hc]
      have hlen : (reasonsList t f prefs ++ [fillerReason]).length ≤ 3 := by
        simp only [List.length_append, List.length_cons, List.length_nil]
        omega
      rw [List.take_of_length_le hlen]
      exact List.mem_append_right _ (List.mem_singleton.mpr rfl)

/-- A popular track by one artist. -/
def popTrack : Track :=
  { popularity := some 80, artists := some [{ name := "Ana", id := "a1" }] }

/-- Witness for C10 (amended) at a concrete popular track with an
all-zero feature vector. -/
theorem recommendation_reasons_witness :
    ∃ l, generateRecommendationReasons (some popTrack) (some zeroVec) none = .ok l ∧
      l.length ≤ 3 ∧ l ≠ [] ∧ l.Sublist (reasonsTemplate popTrack none) ∧
      ((reasonsList popTrack zeroVec none).length < 2 → fillerReason ∈ l) :=
  (recommendation_reasons_spec (some popTrack) (some zeroVec) none).2 popTrack zeroVec rfl rfl

/-- Counterexample to C10 as stated: with an all-zero feature vector the
feature thresholds produce zero reasons, yet the popularity and artist
reasons alone already count as two, so no generic filler is appended. -/
theorem recommendation_reasons_cex :
    ¬ zeroVec.energy > 0.7 ∧ ¬ zeroVec.danceability > 0.7 ∧ ¬ zeroVec.valence > 0.7 ∧
    ¬ zeroVec.acousticness > 0.7 ∧ ¬ zeroVec.instrumentalness > 0.5 ∧
    generateRecommendationReasons (some popTrack) (some zeroVec) none =
      .ok ["Currently trending track with high popularity",
           "Created by Ana, an artist that matches your taste"] ∧
    fillerReason ∉ ["Currently trending track with high popularity",
                    "Created by Ana, an artist that matches your taste"] := by
  refine ⟨by norm_num [zeroVec], by norm_num [zeroVec], by norm_num [zeroVec],
    by norm_num [zeroVec], by norm_num [zeroVec], ?_, by decide⟩
  norm_num [generateRecommendationReasons, reasonsList, zeroVec, popTrack, artistReason,
    fillerReason]
  rfl

end Spotiyrec
